import Mathlib

/-!
Verification of the PR-review code analyzer (`src/backend/code_analyzer.py`).

The analyzer's core is pure text processing over single lines of a unified
diff, so we embed it shallowly: a Python `str` is modelled as the list of its
character code points (`List Nat`), Python's `re.search`/`re.match` calls on
the analyzer's fixed regular expressions are modelled by bespoke executable
matchers with the same semantics on those patterns, and the scoring arithmetic
(which mixes ints and the float weight 0.5) is modelled over `ℚ`, exact for
every value the scorer can produce.
-/

namespace PRScan

/-- Code points of a Lean string literal; models a Python `str` value. -/
def strCodes (s : String) : List Nat := s.data.map Char.toNat

/-- ASCII lowering of one code point; models `re.IGNORECASE` folding on the
analyzer's ASCII-only patterns. -/
def lowerN (n : Nat) : Nat := if 65 ≤ n ∧ n ≤ 90 then n + 32 else n

/-- Python `\s` (ASCII range): space, tab, newline, carriage return,
form feed, vertical tab. -/
def isSpaceCode (n : Nat) : Bool :=
  n = 32 || n = 9 || n = 10 || n = 13 || n = 12 || n = 11

/-- Python `\w` (ASCII range): letters, digits, underscore. -/
def isWordCode (n : Nat) : Bool :=
  (48 ≤ n && n ≤ 57) || (65 ≤ n && n ≤ 90) || (97 ≤ n && n ≤ 122) || n = 95

/-- Match a literal code sequence at the head, returning the remainder. -/
def litAt : List Nat → List Nat → Option (List Nat)
  | [], cs => some cs
  | _ :: _, [] => none
  | p :: ps, c :: cs => if c = p then litAt ps cs else none

/-- Greedy `\s*`. -/
def wsStar (cs : List Nat) : List Nat := cs.dropWhile isSpaceCode

/-- Pattern `\s+`: at least one whitespace code, then greedy. -/
def wsPlus : List Nat → Option (List Nat)
  | [] => none
  | c :: cs => if isSpaceCode c then some (wsStar cs) else none

/-- Pattern `\w+`: at least one word code, then greedy. -/
def wordPlus : List Nat → Option (List Nat)
  | [] => none
  | c :: cs => if isWordCode c then some (cs.dropWhile isWordCode) else none

/-- Models `re.search` semantics: try the position matcher at every suffix. -/
def searchAny (p : List Nat → Bool) : List Nat → Bool
  | [] => p []
  | c :: cs => p (c :: cs) || searchAny p cs

/-- Models `.*X` semantics inside one pattern: try `X` at every suffix reachable
without crossing a newline (regex `.` does not match `\n`). -/
def searchNoNL (p : List Nat → Bool) : List Nat → Bool
  | [] => p []
  | c :: cs => p (c :: cs) || (decide (c ≠ 10) && searchNoNL p cs)

/-- Substring containment, as Python's `in` on strings. -/
def hasSub (pat line : List Nat) : Bool :=
  searchAny (fun cs => (litAt pat cs).isSome) line

/-- Pattern `\s*$`: optional whitespace then end of input (a trailing newline, being
whitespace, is consumed by the `\s*`). -/
def wsEnd (cs : List Nat) : Bool := (cs.dropWhile isSpaceCode).isEmpty

/-- Single-character split with Python `str.split(sep)` semantics:
empty pieces are kept, the empty input yields one empty piece. -/
def splitCh (sep : Nat) : List Nat → List (List Nat)
  | [] => [[]]
  | c :: cs =>
    let r := splitCh sep cs
    if c = sep then [] :: r
    else
      match r with
      | [] => [[c]]
      | g :: gs => (c :: g) :: gs

/-- Python `str.strip()` (ASCII whitespace). -/
def stripCodes (cs : List Nat) : List Nat :=
  ((cs.dropWhile isSpaceCode).reverse.dropWhile isSpaceCode).reverse

/-! ### The analyzer's regular expressions, as positional matchers

Each `...At` function decides whether the pattern matches starting at the
given position (the head of the list); the rule matcher wraps it in
`searchAny` for `re.search`. Case-insensitive rules lower the line first;
the patterns below are written over lowercase literals. -/

/-- Pattern `X\s*\(` at this position (used by `eval`, `exec`, `print` rules). -/
def litWsParenAt (lit : List Nat) (cs : List Nat) : Bool :=
  (Option.bind ((litAt lit cs).map wsStar) (litAt [40])).isSome

/-- Pattern `shell\s*=\s*true` at this position (tail of the subprocess rule). -/
def shellTrueAt (cs : List Nat) : Bool :=
  (Option.bind (Option.bind ((litAt (strCodes "shell") cs).map wsStar)
    (litAt [61])) (fun r => litAt (strCodes "true") (wsStar r))).isSome

/-- Pattern `subprocess\.call\s*\(.*shell\s*=\s*True` at this position. -/
def subprocessAt (cs : List Nat) : Bool :=
  match Option.bind ((litAt (strCodes "subprocess.call") cs).map wsStar) (litAt [40]) with
  | some rest => searchNoNL shellTrueAt rest
  | none => false

/-- Pattern `sql.*\+.*` at this position (the trailing `.*` is vacuous). -/
def sqlConcatAt (cs : List Nat) : Bool :=
  match litAt (strCodes "sql") cs with
  | some rest => searchNoNL (fun r => (litAt [43] r).isSome) rest
  | none => false

def isQuoteCode (n : Nat) : Bool := n = 34 || n = 39

/-- Pattern `NAME\s*=\s*["'][^"']*["']` at this position (hardcoded-credential rules). -/
def credAssignAt (name : List Nat) (cs : List Nat) : Bool :=
  match Option.bind ((litAt name cs).map wsStar) (litAt [61]) with
  | some rest =>
    match wsStar rest with
    | q :: r2 => isQuoteCode q && !(r2.dropWhile (fun n => !isQuoteCode n)).isEmpty
    | [] => false
  | none => false

/-- Pattern `def\s+\w+\([^)]*\):` at this position (shared head of the quality
docstring rule and the Python type-hint rule). -/
def defHeadAt (cs : List Nat) : Option (List Nat) :=
  Option.bind (litAt (strCodes "def") cs) fun r1 =>
  Option.bind (wsPlus r1) fun r2 =>
  Option.bind (wordPlus r2) fun r3 =>
  Option.bind (litAt [40] r3) fun r4 =>
  litAt [41, 58] (r4.dropWhile (fun n => decide (n ≠ 41)))

/-- Pattern `class\s+\w+.*:\s*$` at this position. -/
def classHeadAt (cs : List Nat) : Bool :=
  match Option.bind (litAt (strCodes "class") cs) fun r1 =>
        Option.bind (wsPlus r1) wordPlus with
  | some rest =>
    searchNoNL (fun r =>
      match litAt [58] r with
      | some r2 => wsEnd r2
      | none => false) rest
  | none => false

/-! ### Rule tables (`security_patterns`, `quality_patterns`) -/

def secEval (line : List Nat) : Bool :=
  searchAny (litWsParenAt (strCodes "eval")) (line.map lowerN)

def secExec (line : List Nat) : Bool :=
  searchAny (litWsParenAt (strCodes "exec")) (line.map lowerN)

def secSubprocess (line : List Nat) : Bool :=
  searchAny subprocessAt (line.map lowerN)

def secSql (line : List Nat) : Bool :=
  searchAny sqlConcatAt (line.map lowerN)

def secPassword (line : List Nat) : Bool :=
  searchAny (credAssignAt (strCodes "password")) (line.map lowerN)

def secApiKey (line : List Nat) : Bool :=
  searchAny (credAssignAt (strCodes "api_key")) (line.map lowerN)

def security_patterns : List ((List Nat → Bool) × String) :=
  [ (secEval, "Avoid using eval() as it can execute arbitrary code"),
    (secExec, "Avoid using exec() as it can execute arbitrary code"),
    (secSubprocess, "Avoid shell=True in subprocess calls"),
    (secSql, "Potential SQL injection - use parameterized queries"),
    (secPassword, "Hardcoded password detected"),
    (secApiKey, "Hardcoded API key detected") ]

def qualDefDocstring (line : List Nat) : Bool :=
  searchAny (fun cs =>
    match defHeadAt cs with
    | some rest => wsEnd rest
    | none => false) (line.map lowerN)

def qualClassDocstring (line : List Nat) : Bool :=
  searchAny classHeadAt (line.map lowerN)

def qualPrint (line : List Nat) : Bool :=
  searchAny (litWsParenAt (strCodes "print")) (line.map lowerN)

def qualTodo (line : List Nat) : Bool :=
  hasSub (strCodes "todo") (line.map lowerN) ||
  hasSub (strCodes "fixme") (line.map lowerN) ||
  hasSub (strCodes "hack") (line.map lowerN)

def quality_patterns : List ((List Nat → Bool) × String) :=
  [ (qualDefDocstring, "Function missing docstring"),
    (qualClassDocstring, "Class missing docstring"),
    (qualPrint, "Consider using logging instead of print statements"),
    (qualTodo, "TODO/FIXME comment found - consider addressing") ]

/-! ### The rule loops (`_check_security_patterns`, `_check_quality_patterns`) -/

/-- The `for pattern, message in patterns: if re.search(...)` loop. -/
def checkPatternsAux :
    List ((List Nat → Bool) × String) → List Nat → List String → List String
  | [], _, issues => issues
  | (m, msg) :: rest, line, issues =>
    checkPatternsAux rest line (if m line then issues ++ [msg] else issues)

def checkPatterns (rules : List ((List Nat → Bool) × String)) (line : List Nat) :
    List String :=
  checkPatternsAux rules line []

def check_security_patterns (line : List Nat) : List String :=
  checkPatterns security_patterns line

def check_quality_patterns (line : List Nat) : List String :=
  checkPatterns quality_patterns line

/-! ### Data model (`models.py`) and the Python-specific analyzer -/

inductive FeedbackType where
  | error | warning | suggestion | info
deriving DecidableEq, Repr

structure PyIssue where
  type : FeedbackType
  message : String
  severity : Nat
deriving DecidableEq, Repr

structure CodeFeedback where
  file : List Nat
  line : Nat
  type : FeedbackType
  message : String
  severity : Nat
deriving DecidableEq, Repr

/-- Models `_analyze_python_line`: type-hint check (`re.match`, case-sensitive,
anchored at the start), long-line check, and import-verification check. -/
def analyze_python_line (line : List Nat) : List PyIssue :=
  (if (defHeadAt line).isSome && !hasSub (strCodes "->") line then
    [⟨.suggestion, "Consider adding type hints for better code clarity", 2⟩]
  else []) ++
  (if 88 < (stripCodes line).length then
    [⟨.warning, "Line exceeds recommended length (88 characters)", 2⟩]
  else []) ++
  (if (litAt (strCodes "import ") (stripCodes line)).isSome && !line.contains 35 then
    [⟨.info, "Verify that this import is actually used", 1⟩]
  else [])

/-- The per-line body of `_analyze_file_changes`: security findings, then
quality findings, then (for `.py` files) Python-specific findings. -/
def lineFeedback (fp : List Nat) (lineNum : Nat) (line : List Nat) :
    List CodeFeedback :=
  (check_security_patterns line).map (fun msg => ⟨fp, lineNum, .error, msg, 5⟩) ++
  (check_quality_patterns line).map (fun msg => ⟨fp, lineNum, .warning, msg, 3⟩) ++
  (if (strCodes ".py").isSuffixOf fp then
    (analyze_python_line line).map (fun i => ⟨fp, lineNum, i.type, i.message, i.severity⟩)
  else [])

/-- Models `_analyze_file_changes`: lines numbered from 1 within the added-lines view. -/
def analyze_file_changes (fp : List Nat) (changes : List (List Nat)) :
    List CodeFeedback :=
  (changes.enum.map (fun p => lineFeedback fp (p.1 + 1) p.2)).flatten

def code_extensions : List String :=
  [".py", ".js", ".ts", ".jsx", ".tsx", ".java", ".cpp", ".c", ".cs", ".php", ".rb", ".go"]

/-- Models `_is_code_file`. -/
def is_code_file (fp : List Nat) : Bool :=
  code_extensions.any (fun e => (strCodes e).isSuffixOf fp)

/-! ### `_parse_diff` -/

def markerCodes : List Nat := strCodes "diff --git"

/-- Models `line.split(' ')[-1]`. -/
def lastTok (l : List Nat) : List Nat := (splitCh 32 l).getLastD []

/-- Models `parts[-1][2:]`: the final space-separated token with its first two
characters removed, whatever they are. -/
def extractPath (l : List Nat) : List Nat := (lastTok l).drop 2

/-- Python dict assignment `files[k] = v`: update in place if the key is
present (keeping its position), else append. -/
def upsert (files : List (List Nat × List (List Nat))) (k : List Nat)
    (v : List (List Nat)) : List (List Nat × List (List Nat)) :=
  if files.any (fun p => p.1 = k) then
    files.map (fun p => if p.1 = k then (k, v) else p)
  else files ++ [(k, v)]

/-- Models `if current_file: files[current_file] = current_changes` — `None` and the
empty string are both falsy, so an empty extracted path is never flushed. -/
def flushFile : Option (List Nat) → List (List Nat) →
    List (List Nat × List (List Nat)) → List (List Nat × List (List Nat))
  | none, _, files => files
  | some f, changes, files => if f = [] then files else upsert files f changes

/-- The line loop of `_parse_diff`. -/
def parseDiffAux : List (List Nat) → Option (List Nat) → List (List Nat) →
    List (List Nat × List (List Nat)) → List (List Nat × List (List Nat))
  | [], cur, changes, files => flushFile cur changes files
  | l :: ls, cur, changes, files =>
    if markerCodes.isPrefixOf l then
      parseDiffAux ls (some (extractPath l)) [] (flushFile cur changes files)
    else if [43].isPrefixOf l && !([43, 43, 43].isPrefixOf l) then
      parseDiffAux ls cur (changes ++ [l.drop 1]) files
    else
      parseDiffAux ls cur changes files

def parseLines (ls : List (List Nat)) : List (List Nat × List (List Nat)) :=
  parseDiffAux ls none [] []

/-- Models `_parse_diff` on the raw diff text: split on newlines, run the loop. -/
def parse_diff (s : String) : List (List Nat × List (List Nat)) :=
  parseLines (splitCh 10 (strCodes s))

/-- Number of `diff --git` marker lines in the diff text. -/
def markerCount (s : String) : Nat :=
  (splitCh 10 (strCodes s)).countP (fun l => markerCodes.isPrefixOf l)

/-! ### `_calculate_score` -/

/-- Per-finding penalty weight (`error` 3, `warning` 2, `suggestion` 1,
`info` 0.5), exact over `ℚ`. -/
def penaltyOf (f : CodeFeedback) : ℚ :=
  match f.type with
  | .error => f.severity * 3
  | .warning => f.severity * 2
  | .suggestion => f.severity * 1
  | .info => f.severity * (1 / 2)

/-- Python `min(a, b)`: returns `b` when `b < a`, else `a`. -/
def pyMin (a b : ℚ) : ℚ := if b < a then b else a

/-- Python `max(a, b)`: returns `b` when `a < b`, else `a`. -/
def pyMax (a b : ℚ) : ℚ := if a < b then b else a

/-- Models `_calculate_score`. Python's `int()` truncates toward zero; the value it
is applied to is nonnegative (it has just been clamped below by `max(0, ·)`),
so truncation is the floor. -/
def calculate_score (feedback : List CodeFeedback) : Int :=
  if feedback.isEmpty then 100
  else
    let total_penalty := feedback.foldl (fun acc f => acc + penaltyOf f) 0
    ⌊pyMax 0 (100 - pyMin 100 total_penalty)⌋

/-! ### The pipeline of `analyze_changes` (score and findings; the summary
and recommendation strings are not needed by any claim) -/

def analyze_changes (s : String) : Int × List CodeFeedback :=
  let sections := parse_diff s
  let feedback := sections.foldl
    (fun acc p => if is_code_file p.1 then acc ++ analyze_file_changes p.1 p.2 else acc) []
  (calculate_score feedback, feedback)

/-! ### Scorer lemmas -/

/-- Modelled from the spec: the Scorer exactly as §4.3 words it — sum the
per-finding penalties, clamp the sum to at most 100, subtract from 100,
floor to an integer, clamp the result to be at least 0 (and 100 outright
for an empty findings sequence). Stated with the mathematical `min`/`max`
and `List.sum`, to be compared with `calculate_score` from the code. -/
def scoreSpec (findings : List CodeFeedback) : Int :=
  if findings = [] then 100
  else max 0 ⌊(100 : ℚ) - min 100 ((findings.map penaltyOf).sum)⌋

theorem pyMin_eq_min (a b : ℚ) : pyMin a b = min a b := by
  rw [pyMin, min_def]
  split_ifs with h1 h2 h3
  · linarith
  · rfl
  · rfl
  · linarith

theorem pyMax_eq_max (a b : ℚ) : pyMax a b = max a b := by
  rw [pyMax, max_def]
  split_ifs with h1 h2 h3
  · rfl
  · linarith
  · exact le_antisymm h3 (not_lt.mp h1)
  · rfl

theorem penaltyOf_nonneg (f : CodeFeedback) : 0 ≤ penaltyOf f := by
  rw [penaltyOf]
  rcases f.type <;> positivity

theorem penaltySum_nonneg (fb : List CodeFeedback) : 0 ≤ (fb.map penaltyOf).sum := by
  induction fb with
  | nil => simp
  | cons f t ih => simpa using add_nonneg (penaltyOf_nonneg f) ih

theorem penaltyFoldl_eq_sum (fb : List CodeFeedback) (c : ℚ) :
    fb.foldl (fun acc f => acc + penaltyOf f) c = c + (fb.map penaltyOf).sum := by
  induction fb generalizing c with
  | nil => simp
  | cons f t ih => simp [ih, add_assoc]

/-- On a nonempty findings list the code's score is the floor of the clamped
rational score, which is already in `[0, 100]`. -/
theorem calculate_score_eq_floor (fb : List CodeFeedback) (h : fb ≠ []) :
    calculate_score fb = ⌊(100 : ℚ) - min 100 ((fb.map penaltyOf).sum)⌋ := by
  have hne : fb.isEmpty = false := by simpa using h
  simp only [calculate_score, hne, Bool.false_eq_true, if_false,
    penaltyFoldl_eq_sum, zero_add, pyMin_eq_min, pyMax_eq_max]
  have h0 : (0 : ℚ) ≤ 100 - min 100 ((fb.map penaltyOf).sum) := by
    have := min_le_left (100 : ℚ) ((fb.map penaltyOf).sum)
    linarith
  rw [max_eq_right h0]

theorem rawScore_nonneg (fb : List CodeFeedback) :
    (0 : ℚ) ≤ 100 - min 100 ((fb.map penaltyOf).sum) := by
  have := min_le_left (100 : ℚ) ((fb.map penaltyOf).sum)
  linarith

theorem rawScore_le_100 (fb : List CodeFeedback) :
    (100 : ℚ) - min 100 ((fb.map penaltyOf).sum) ≤ 100 := by
  have h1 := penaltySum_nonneg fb
  have : (0 : ℚ) ≤ min 100 ((fb.map penaltyOf).sum) := le_min (by norm_num) h1
  linarith

theorem calculate_score_nonneg (fb : List CodeFeedback) : 0 ≤ calculate_score fb := by
  by_cases h : fb = []
  · subst h; rw [calculate_score]; norm_num
  · rw [calculate_score_eq_floor fb h]
    exact Int.floor_nonneg.mpr (rawScore_nonneg fb)

theorem calculate_score_le_100 (fb : List CodeFeedback) : calculate_score fb ≤ 100 := by
  by_cases h : fb = []
  · subst h; rw [calculate_score]; norm_num
  · rw [calculate_score_eq_floor fb h]
    calc ⌊(100 : ℚ) - min 100 ((fb.map penaltyOf).sum)⌋
        ≤ ⌊(100 : ℚ)⌋ := Int.floor_le_floor (rawScore_le_100 fb)
      _ = 100 := by norm_num

/-! ### Claim C1 — scoring formula and bounds -/

/-- C1: for every findings sequence the scorer returns 100 on the empty
sequence and otherwise 100 minus the penalty sum (error: severity×3,
warning: severity×2, suggestion: severity×1, info: severity×0.5) clamped to
at most 100, floored to an integer and clamped to at least 0; hence the
score always lies in [0, 100]. -/
theorem score_matches_spec_and_bounded :
    (∀ fb : List CodeFeedback, calculate_score fb = scoreSpec fb ∧
      0 ≤ calculate_score fb ∧ calculate_score fb ≤ 100) ∧
    calculate_score [] = 100 := by
  refine ⟨fun fb => ⟨?_, calculate_score_nonneg fb, calculate_score_le_100 fb⟩,
    by rw [calculate_score]; norm_num⟩
  by_cases h : fb = []
  · subst h; rw [calculate_score, scoreSpec]; norm_num
  · rw [calculate_score_eq_floor fb h, scoreSpec, if_neg h,
      max_eq_right (Int.floor_nonneg.mpr (rawScore_nonneg fb))]

/-! ### Claim C6 — appending an error finding never increases the score -/

/-- C6: appending one additional finding of kind `error` (any severity)
to a findings sequence yields a score less than or equal to the original
sequence's score. -/
theorem score_antitone_in_error_finding :
    ∀ (fb : List CodeFeedback) (file : List Nat) (ln : Nat) (msg : String) (sev : Nat),
      calculate_score (fb ++ [⟨file, ln, FeedbackType.error, msg, sev⟩]) ≤
        calculate_score fb := by
  intro fb file ln msg sev
  by_cases h : fb = []
  · subst h
    have h1 := calculate_score_le_100 [(⟨file, ln, .error, msg, sev⟩ : CodeFeedback)]
    have h2 : calculate_score ([] : List CodeFeedback) = 100 := by
      rw [calculate_score]; norm_num
    simpa [h2] using h1
  · have hne : fb ++ [(⟨file, ln, .error, msg, sev⟩ : CodeFeedback)] ≠ [] := by simp
    rw [calculate_score_eq_floor _ hne, calculate_score_eq_floor fb h]
    apply Int.floor_le_floor
    have hpen : (0 : ℚ) ≤ penaltyOf ⟨file, ln, .error, msg, sev⟩ := penaltyOf_nonneg _
    have hsum : (fb.map penaltyOf).sum ≤
        ((fb ++ [(⟨file, ln, .error, msg, sev⟩ : CodeFeedback)]).map penaltyOf).sum := by
      simp only [List.map_append, List.sum_append, List.map_cons, List.map_nil,
        List.sum_cons, List.sum_nil, add_zero]
      linarith
    have hmin := min_le_min (le_refl (100 : ℚ)) hsum
    linarith

/-! ### Claim C7 — scenario B: `+def foo(x):` in `mod.py` -/

theorem analyze_changes_fst (s : String) :
    (analyze_changes s).1 = calculate_score (analyze_changes s).2 := rfl

/-- C7: on the diff whose only added line is `def foo(x):` in `mod.py`, the
pipeline produces exactly two findings — the missing-docstring `warning` of
severity 3 and the missing-type-hint `suggestion` of severity 2 — and the
score is 92 (penalty 3×2 + 2×1 = 8). -/
theorem scenario_b_two_findings_score_92 :
    (analyze_changes "diff --git a/mod.py b/mod.py\n+def foo(x):").2 =
      [⟨strCodes "mod.py", 1, FeedbackType.warning, "Function missing docstring", 3⟩,
       ⟨strCodes "mod.py", 1, FeedbackType.suggestion,
        "Consider adding type hints for better code clarity", 2⟩] ∧
    (analyze_changes "diff --git a/mod.py b/mod.py\n+def foo(x):").1 = 92 := by
  have hfb : (analyze_changes "diff --git a/mod.py b/mod.py\n+def foo(x):").2 =
      [⟨strCodes "mod.py", 1, FeedbackType.warning, "Function missing docstring", 3⟩,
       ⟨strCodes "mod.py", 1, FeedbackType.suggestion,
        "Consider adding type hints for better code clarity", 2⟩] := by decide
  refine ⟨hfb, ?_⟩
  rw [analyze_changes_fst, hfb]
  norm_num [calculate_score, penaltyOf, pyMin, pyMax]

/-! ### Claim C5 — findings of one line come out in group order -/

/-- The rule loop reports exactly the matching rules' messages, in
rule-declaration order. -/
theorem checkPatternsAux_eq (rules : List ((List Nat → Bool) × String))
    (line : List Nat) (acc : List String) :
    checkPatternsAux rules line acc =
      acc ++ (rules.filter (fun r => r.1 line)).map Prod.snd := by
  induction rules generalizing acc with
  | nil => simp [checkPatternsAux]
  | cons r t ih =>
    obtain ⟨m, msg⟩ := r
    rw [checkPatternsAux]
    by_cases hm : m line = true
    · rw [if_pos hm, ih, List.filter_cons, if_pos (by simpa using hm)]
      simp
    · rw [if_neg hm, ih, List.filter_cons, if_neg (by simpa using hm)]

/-- Rule-group rank read off a finding: security findings are `error`s,
quality findings are severity-3 `warning`s, extension-specific findings are
`suggestion`s, severity-2 `warning`s or `info`s. -/
def groupRank (f : CodeFeedback) : Nat :=
  match f.type with
  | .error => 0
  | .warning => if f.severity = 3 then 1 else 2
  | .suggestion => 2
  | .info => 2

theorem analyze_python_line_shape (line : List Nat) (i : PyIssue)
    (h : i ∈ analyze_python_line line) :
    (i.type = .suggestion ∧ i.severity = 2) ∨ (i.type = .warning ∧ i.severity = 2) ∨
      (i.type = .info ∧ i.severity = 1) := by
  rw [analyze_python_line] at h
  simp only [List.mem_append] at h
  rcases h with (h | h) | h <;>
    (split at h <;> simp only [List.mem_singleton, List.not_mem_nil] at h) <;>
    subst h <;> simp

theorem pairwise_rank_of_const {l : List CodeFeedback} {c : Nat}
    (h : ∀ x ∈ l, groupRank x = c) :
    l.Pairwise (fun a b => groupRank a ≤ groupRank b) := by
  induction l with
  | nil => exact List.Pairwise.nil
  | cons a t ih =>
    refine List.Pairwise.cons (fun b hb => ?_)
      (ih (fun x hx => h x (List.mem_cons_of_mem _ hx)))
    rw [h a (List.mem_cons_self _ _), h b (List.mem_cons_of_mem _ hb)]

/-- C5: for every file path and line, findings are emitted as the security
group, then the quality group, then the extension-specific group, each group
in rule-declaration order; consequently the group ranks along the emitted
list never decrease. -/
theorem findings_emitted_in_group_order :
    (∀ fp ln line, lineFeedback fp ln line =
        (check_security_patterns line).map
          (fun msg => (⟨fp, ln, .error, msg, 5⟩ : CodeFeedback)) ++
        (check_quality_patterns line).map
          (fun msg => (⟨fp, ln, .warning, msg, 3⟩ : CodeFeedback)) ++
        (if (strCodes ".py").isSuffixOf fp then
          (analyze_python_line line).map
            (fun i => (⟨fp, ln, i.type, i.message, i.severity⟩ : CodeFeedback))
        else [])) ∧
    (∀ line, check_security_patterns line =
        (security_patterns.filter (fun r => r.1 line)).map Prod.snd) ∧
    (∀ line, check_quality_patterns line =
        (quality_patterns.filter (fun r => r.1 line)).map Prod.snd) ∧
    (∀ fp ln line, (lineFeedback fp ln line).Pairwise
        (fun a b => groupRank a ≤ groupRank b)) := by
  refine ⟨fun fp ln line => rfl,
    fun line => by
      rw [check_security_patterns, checkPatterns, checkPatternsAux_eq, List.nil_append],
    fun line => by
      rw [check_quality_patterns, checkPatterns, checkPatternsAux_eq, List.nil_append],
    fun fp ln line => ?_⟩
  have hA : ∀ x ∈ (check_security_patterns line).map
      (fun msg => (⟨fp, ln, .error, msg, 5⟩ : CodeFeedback)), groupRank x = 0 := by
    intro x hx
    obtain ⟨msg, _, rfl⟩ := List.mem_map.mp hx
    rfl
  have hB : ∀ x ∈ (check_quality_patterns line).map
      (fun msg => (⟨fp, ln, .warning, msg, 3⟩ : CodeFeedback)), groupRank x = 1 := by
    intro x hx
    obtain ⟨msg, _, rfl⟩ := List.mem_map.mp hx
    rfl
  have hC : ∀ x ∈ (if (strCodes ".py").isSuffixOf fp then
      (analyze_python_line line).map
        (fun i => (⟨fp, ln, i.type, i.message, i.severity⟩ : CodeFeedback))
      else []), groupRank x = 2 := by
    intro x hx
    split at hx
    · obtain ⟨i, hi, rfl⟩ := List.mem_map.mp hx
      rcases analyze_python_line_shape line i hi with ⟨h1, h2⟩ | ⟨h1, h2⟩ | ⟨h1, h2⟩ <;>
        simp [groupRank, h1, h2]
    · simp at hx
  show ((check_security_patterns line).map
      (fun msg => (⟨fp, ln, .error, msg, 5⟩ : CodeFeedback)) ++
    (check_quality_patterns line).map
      (fun msg => (⟨fp, ln, .warning, msg, 3⟩ : CodeFeedback)) ++
    _).Pairwise (fun a b => groupRank a ≤ groupRank b)
  rw [List.pairwise_append, List.pairwise_append]
  refine ⟨⟨pairwise_rank_of_const hA, pairwise_rank_of_const hB, ?_⟩,
    pairwise_rank_of_const hC, ?_⟩
  · intro a ha b hb
    rw [hA a ha, hB b hb]
    norm_num
  · intro a ha b hb
    rcases List.mem_append.mp ha with h | h
    · rw [hA a h, hC b hb]; norm_num
    · rw [hB a h, hC b hb]; norm_num

/-! ### Claim C8 — quality matching is case-insensitive -/

theorem lowerN_idem (n : Nat) : lowerN (lowerN n) = lowerN n := by
  unfold lowerN
  split_ifs <;> omega

theorem map_lowerN_idem (l : List Nat) : (l.map lowerN).map lowerN = l.map lowerN := by
  rw [List.map_map]
  exact List.map_congr_left (fun a _ => lowerN_idem a)

theorem check_quality_ci (line : List Nat) :
    check_quality_patterns (line.map lowerN) = check_quality_patterns line := by
  simp only [check_quality_patterns, checkPatterns, quality_patterns, checkPatternsAux,
    qualDefDocstring, qualClassDocstring, qualPrint, qualTodo, hasSub, map_lowerN_idem]

/-- C8: every quality rule is matched case-insensitively: the check is
invariant under case-folding the line, and in particular the print rule
fires on `PRINT(x)` and the TODO rule on `Todo`. -/
theorem quality_matching_case_insensitive :
    (∀ line, check_quality_patterns (line.map lowerN) = check_quality_patterns line) ∧
    "Consider using logging instead of print statements" ∈
      check_quality_patterns (strCodes "PRINT(x)") ∧
    "TODO/FIXME comment found - consider addressing" ∈
      check_quality_patterns (strCodes "Todo") :=
  ⟨check_quality_ci, by decide, by decide⟩

/-! ### Claim C10 — the import-verification info finding's exact condition -/

/-- The `info` issue emitted by the import heuristic. -/
def importIssue : PyIssue := ⟨.info, "Verify that this import is actually used", 1⟩

theorem import_issue_mem (line : List Nat) :
    (importIssue ∈ analyze_python_line line) ↔
      ((litAt (strCodes "import ") (stripCodes line)).isSome &&
        !line.contains 35) = true := by
  rw [analyze_python_line]
  by_cases h3 : ((litAt (strCodes "import ") (stripCodes line)).isSome &&
      !line.contains 35) = true
  · rw [if_pos h3]
    simp only [h3, iff_true]
    simp [importIssue]
  · rw [if_neg h3]
    simp only [h3]
    simp only [List.append_nil, List.mem_append]
    constructor
    · rintro (h | h) <;> (split at h <;> simp [importIssue] at h)
    · intro h
      cases h

/-- C10: the import-verification `info` finding (severity 1) is produced for
an added line exactly when the file ends in `.py`, the stripped line starts
with `import ` and the line contains no `#` anywhere; `from X import Y`
lines and commented `import` lines never produce it, and non-`.py` files
produce no `info` finding at all. -/
theorem import_info_exact_condition :
    (∀ line, (importIssue ∈ analyze_python_line line) ↔
      ((litAt (strCodes "import ") (stripCodes line)).isSome &&
        !line.contains 35) = true) ∧
    (∀ fp ln line, (strCodes ".py").isSuffixOf fp = false →
      ∀ f ∈ lineFeedback fp ln line, f.type ≠ FeedbackType.info) ∧
    importIssue ∉ analyze_python_line (strCodes "from os import path") ∧
    importIssue ∉ analyze_python_line (strCodes "import os  # noqa") ∧
    importIssue ∈ analyze_python_line (strCodes "  import os") := by
  refine ⟨import_issue_mem, ?_, by decide, by decide, by decide⟩
  intro fp ln line hpy f hf
  rw [lineFeedback, hpy] at hf
  simp only [Bool.false_eq_true, if_false, List.append_nil, List.mem_append,
    List.mem_map] at hf
  rcases hf with ⟨msg, _, rfl⟩ | ⟨msg, _, rfl⟩ <;> simp

/-! ### Parser lemmas (claims C2, C4, C9) -/

theorem plus_not_marker {l : List Nat} (h : [43].isPrefixOf l = true) :
    markerCodes.isPrefixOf l = false := by
  have hm : markerCodes = 100 :: [105, 102, 102, 32, 45, 45, 103, 105, 116] := by decide
  cases l with
  | nil => simp [List.isPrefixOf] at h
  | cons c cs =>
    simp [List.isPrefixOf] at h
    rw [hm]
    simp [List.isPrefixOf]
    intro hc
    exfalso
    omega

theorem upsert_nil (k : List Nat) (v : List (List Nat)) : upsert [] k v = [(k, v)] := rfl

theorem upsert_single_same (k : List Nat) (v w : List (List Nat)) :
    upsert [(k, v)] k w = [(k, w)] := by
  simp [upsert]

theorem flushFile_none (ch : List (List Nat)) (files : List (List Nat × List (List Nat))) :
    flushFile none ch files = files := rfl

theorem flushFile_some_ne (f : List Nat) (ch : List (List Nat))
    (files : List (List Nat × List (List Nat))) (h : f ≠ []) :
    flushFile (some f) ch files = upsert files f ch := by
  rw [flushFile, if_neg h]

/-- Weight of the pending file pointer: how many entries the final flush of
the loop state can still add. -/
def curW : Option (List Nat) → Nat
  | none => 0
  | some _ => 1

theorem upsert_length (files : List (List Nat × List (List Nat))) (k : List Nat)
    (v : List (List Nat)) : (upsert files k v).length ≤ files.length + 1 := by
  rw [upsert]
  split
  · rw [List.length_map]; omega
  · rw [List.length_append]; simp

theorem flushFile_length (cur : Option (List Nat)) (ch : List (List Nat))
    (files : List (List Nat × List (List Nat))) :
    (flushFile cur ch files).length ≤ files.length + curW cur := by
  cases cur with
  | none => simp [flushFile, curW]
  | some f =>
    rw [flushFile]
    split
    · simp [curW]
    · exact upsert_length files f ch

theorem parseDiffAux_length (ls : List (List Nat)) : ∀ cur ch files,
    (parseDiffAux ls cur ch files).length ≤
      files.length + curW cur + ls.countP (fun l => markerCodes.isPrefixOf l) := by
  induction ls with
  | nil =>
    intro cur ch files
    simpa using flushFile_length cur ch files
  | cons l t ih =>
    intro cur ch files
    rw [parseDiffAux, List.countP_cons]
    by_cases hm : markerCodes.isPrefixOf l = true
    · rw [if_pos hm]
      have h1 := ih (some (extractPath l)) [] (flushFile cur ch files)
      have h2 := flushFile_length cur ch files
      have hw : curW (some (extractPath l)) = 1 := rfl
      rw [hw] at h1
      simp only [hm, if_true]
      omega
    · rw [if_neg hm]
      simp only [hm, Bool.false_eq_true, if_false]
      split
      · have h1 := ih cur (ch ++ [l.drop 1]) files
        omega
      · have h1 := ih cur ch files
        omega

theorem parseDiffAux_no_markers (ls : List (List Nat)) : ∀ ch files,
    (∀ l ∈ ls, markerCodes.isPrefixOf l = false) →
    parseDiffAux ls none ch files = files := by
  induction ls with
  | nil => intro ch files _; rfl
  | cons l t ih =>
    intro ch files h
    have hl := h l (List.mem_cons_self _ _)
    rw [parseDiffAux, if_neg (by simp [hl])]
    have ht : ∀ x ∈ t, markerCodes.isPrefixOf x = false :=
      fun x hx => h x (List.mem_cons_of_mem _ hx)
    split
    · exact ih _ _ ht
    · exact ih _ _ ht

/-- C2 (amended): the parse map has at most as many entries as there are
`diff --git` marker lines (duplicate extracted paths collapse, empty
extracted paths are dropped), and a diff with no markers parses to the
empty map. -/
theorem parse_diff_at_most_marker_entries :
    ∀ s : String, (parse_diff s).length ≤ markerCount s ∧
      (markerCount s = 0 → parse_diff s = []) := by
  intro s
  constructor
  · have h := parseDiffAux_length (splitCh 10 (strCodes s)) none [] []
    simpa [parse_diff, parseLines, markerCount, curW] using h
  · intro h0
    rw [markerCount] at h0
    rw [List.countP_eq_zero] at h0
    refine parseDiffAux_no_markers _ _ _ (fun l hl => ?_)
    have hh := h0 l hl
    simp only [Bool.not_eq_true] at hh
    exact hh

theorem parse_diff_at_most_marker_entries_w :
    markerCount "just some text" = 0 ∧ parse_diff "just some text" = [] :=
  ⟨by decide, (parse_diff_at_most_marker_entries "just some text").2 (by decide)⟩

/-- C2 counterexample: a diff whose two `diff --git` sections extract the
same path has two markers but only one entry, so the map does not have
exactly N entries. -/
theorem two_markers_one_entry :
    markerCount "diff --git a/f.py b/f.py\ndiff --git a/f.py b/f.py" = 2 ∧
    (parse_diff "diff --git a/f.py b/f.py\ndiff --git a/f.py b/f.py").length = 1 :=
  ⟨by decide, by decide⟩

/-- C4 (amended): the parser unconditionally removes the first two characters
of the marker line's final space-separated token — whether or not a
side-indicator prefix such as `b/` is present — and drops the section when
the result is empty; parsing is a total function of the input text. -/
theorem marker_path_always_stripped :
    ∀ (s : String) (l : List Nat),
      splitCh 10 (strCodes s) = [l] →
      markerCodes.isPrefixOf l = true →
      parse_diff s = (if extractPath l = [] then [] else [(extractPath l, [])]) ∧
      extractPath l = ((splitCh 32 l).getLastD []).drop 2 := by
  intro s l hs hm
  refine ⟨?_, rfl⟩
  rw [parse_diff, hs, parseLines, parseDiffAux, if_pos hm, parseDiffAux, flushFile_none]
  by_cases hp : extractPath l = []
  · rw [flushFile, if_pos hp, if_pos hp]
  · rw [flushFile_some_ne _ _ _ hp, if_neg hp, upsert_nil]

theorem marker_path_always_stripped_w :
    parse_diff "diff --git a/x foo.py" =
      (if extractPath (strCodes "diff --git a/x foo.py") = [] then []
       else [(extractPath (strCodes "diff --git a/x foo.py"), [])]) :=
  (marker_path_always_stripped "diff --git a/x foo.py"
    (strCodes "diff --git a/x foo.py") (by decide) (by decide)).1

/-- C4 counterexample: the final token `foo.py` of this marker line carries
no two-character side-indicator prefix, yet the parser does not pass it
through unstripped — the stored path is `o.py`, not `foo.py`. -/
theorem unstripped_path_false :
    (parse_diff "diff --git a/x foo.py").map Prod.fst = [strCodes "o.py"] ∧
    ¬ strCodes "foo.py" ∈ (parse_diff "diff --git a/x foo.py").map Prod.fst :=
  ⟨by decide, by decide⟩

theorem parseDiffAux_adds (adds : List (List Nat)) : ∀ (rest : List (List Nat)) cur ch files,
    (∀ a ∈ adds, [43].isPrefixOf a = true ∧ [43, 43, 43].isPrefixOf a = false) →
    parseDiffAux (adds ++ rest) cur ch files =
      parseDiffAux rest cur (ch ++ adds.map (fun l => l.drop 1)) files := by
  induction adds with
  | nil =>
    intro rest cur ch files _
    simp
  | cons a t ih =>
    intro rest cur ch files h
    obtain ⟨h1, h2⟩ := h a (List.mem_cons_self _ _)
    rw [List.cons_append, parseDiffAux, if_neg (by simp [plus_not_marker h1]),
      if_pos (by simp [h1, h2]),
      ih _ _ _ _ (fun x hx => h x (List.mem_cons_of_mem _ hx))]
    have hch : (ch ++ [a.drop 1]) ++ t.map (fun l => l.drop 1) =
        ch ++ (a :: t).map (fun l => l.drop 1) := by
      simp
    rw [hch]

/-- C9: when two `diff --git` sections extract the same nonempty file path,
the parse result holds a single entry for that path containing only the
later section's added lines, and has fewer entries than there are markers. -/
theorem duplicate_path_keeps_later_section :
    ∀ (s : String) (m1 m2 : List Nat) (adds1 adds2 : List (List Nat)),
      splitCh 10 (strCodes s) = m1 :: (adds1 ++ m2 :: adds2) →
      markerCodes.isPrefixOf m1 = true →
      markerCodes.isPrefixOf m2 = true →
      extractPath m2 = extractPath m1 →
      extractPath m1 ≠ [] →
      (∀ a ∈ adds1, [43].isPrefixOf a = true ∧ [43, 43, 43].isPrefixOf a = false) →
      (∀ a ∈ adds2, [43].isPrefixOf a = true ∧ [43, 43, 43].isPrefixOf a = false) →
      parse_diff s = [(extractPath m1, adds2.map (fun l => l.drop 1))] ∧
      (parse_diff s).length < markerCount s := by
  intro s m1 m2 adds1 adds2 hs hm1 hm2 hpp hp h1 h2
  have hmain : parse_diff s = [(extractPath m1, adds2.map (fun l => l.drop 1))] := by
    rw [parse_diff, hs, parseLines, parseDiffAux, if_pos hm1, flushFile_none,
      parseDiffAux_adds adds1 _ _ _ _ h1, parseDiffAux, if_pos hm2,
      flushFile_some_ne _ _ _ hp, upsert_nil]
    have hrw := parseDiffAux_adds adds2 [] (some (extractPath m2)) []
      [(extractPath m1, List.nil ++ adds1.map (fun l => l.drop 1))] h2
    rw [List.append_nil] at hrw
    rw [hrw, parseDiffAux, hpp, flushFile_some_ne _ _ _ hp, upsert_single_same]
    simp
  refine ⟨hmain, ?_⟩
  have hc : markerCount s = 2 := by
    rw [markerCount, hs, List.countP_cons, List.countP_append, List.countP_cons]
    have hz1 : adds1.countP (fun l => markerCodes.isPrefixOf l) = 0 :=
      List.countP_eq_zero.mpr (fun a ha => by simp [plus_not_marker (h1 a ha).1])
    have hz2 : adds2.countP (fun l => markerCodes.isPrefixOf l) = 0 :=
      List.countP_eq_zero.mpr (fun a ha => by simp [plus_not_marker (h2 a ha).1])
    rw [hz1, hz2]
    simp [hm1, hm2]
  rw [hmain, hc]
  norm_num

theorem duplicate_path_keeps_later_section_w :
    parse_diff "diff --git a/f.py b/f.py\n+x = 1\ndiff --git a/f.py b/f.py\n+y = 2" =
      [(extractPath (strCodes "diff --git a/f.py b/f.py"),
        [strCodes "+x = 1", strCodes "+y = 2"].tail.map (fun l => l.drop 1))] ∧
    (parse_diff "diff --git a/f.py b/f.py\n+x = 1\ndiff --git a/f.py b/f.py\n+y = 2").length <
      markerCount "diff --git a/f.py b/f.py\n+x = 1\ndiff --git a/f.py b/f.py\n+y = 2" :=
  duplicate_path_keeps_later_section
    "diff --git a/f.py b/f.py\n+x = 1\ndiff --git a/f.py b/f.py\n+y = 2"
    (strCodes "diff --git a/f.py b/f.py") (strCodes "diff --git a/f.py b/f.py")
    [strCodes "+x = 1"] [strCodes "+y = 2"]
    (by decide) (by decide) (by decide) (by decide) (by decide) (by decide) (by decide)

/-! ### Claim C3 — behaviour of the rule loop when a rule's evaluation raises

`_check_security_patterns` / `_check_quality_patterns` run
`for pattern, message in patterns: if re.search(pattern, line, ...)` with no
try/except. We model a matcher that may raise (as `re.search` does on a
malformed pattern) as returning `Option Bool`, `none` being the exception:
the loop below propagates it, aborting and losing every finding. -/

def checkPatternsExcAux :
    List ((List Nat → Option Bool) × String) → List Nat → List String →
      Option (List String)
  | [], _, issues => some issues
  | (m, msg) :: rest, line, issues =>
    match m line with
    | none => none
    | some b => checkPatternsExcAux rest line (if b then issues ++ [msg] else issues)

def checkPatternsExc (rules : List ((List Nat → Option Bool) × String))
    (line : List Nat) : Option (List String) :=
  checkPatternsExcAux rules line []

/-- The analyzer's actual rule tables as fallible matchers: each fixed
pattern is syntactically valid, so its matcher never raises. -/
def liftRules (rules : List ((List Nat → Bool) × String)) :
    List ((List Nat → Option Bool) × String) :=
  rules.map (fun r => (fun l => some (r.1 l), r.2))

theorem checkPatternsExcAux_lift (rules : List ((List Nat → Bool) × String))
    (line : List Nat) : ∀ acc,
    checkPatternsExcAux (liftRules rules) line acc =
      some (checkPatternsAux rules line acc) := by
  induction rules with
  | nil => intro acc; rfl
  | cons r t ih =>
    intro acc
    obtain ⟨m, msg⟩ := r
    rw [liftRules, List.map_cons]
    exact ih _

theorem checkPatternsExcAux_aborts (rs2 : List ((List Nat → Option Bool) × String))
    (msg : String) (line : List Nat) :
    ∀ (rs1 : List ((List Nat → Option Bool) × String)) (acc : List String),
      (∀ r ∈ rs1, ((r.1 : List Nat → Option Bool) line).isSome = true) →
      checkPatternsExcAux (rs1 ++ ((fun _ => (none : Option Bool)), msg) :: rs2)
        line acc = none := by
  intro rs1
  induction rs1 with
  | nil => intro acc _; rfl
  | cons r t ih =>
    intro acc h
    obtain ⟨m, msg'⟩ := r
    have hm : (m line).isSome = true := h _ (List.mem_cons_self _ _)
    rw [List.cons_append, checkPatternsExcAux]
    obtain ⟨b, hb⟩ := Option.isSome_iff_exists.mp hm
    rw [hb]
    exact ih _ (fun x hx => h x (List.mem_cons_of_mem _ hx))

/-- C3 (amended): the rule loop has no per-rule exception isolation. With
the analyzer's actual (total, valid) rule tables no evaluation ever raises,
so in practice the loop never fails; but an exception in any one rule
propagates and aborts the entire line's rule loop, producing no findings at
all — not even those of rules that already matched or were still to run. -/
theorem rule_exception_aborts_whole_line :
    (∀ line, checkPatternsExc (liftRules security_patterns) line =
      some (check_security_patterns line)) ∧
    (∀ line, checkPatternsExc (liftRules quality_patterns) line =
      some (check_quality_patterns line)) ∧
    (∀ (rs1 rs2 : List ((List Nat → Option Bool) × String)) (msg : String)
        (line : List Nat),
      (∀ r ∈ rs1, ((r.1 : List Nat → Option Bool) line).isSome = true) →
      checkPatternsExc (rs1 ++ ((fun _ => (none : Option Bool)), msg) :: rs2)
        line = none) :=
  ⟨fun line => checkPatternsExcAux_lift security_patterns line [],
   fun line => checkPatternsExcAux_lift quality_patterns line [],
   fun rs1 rs2 msg line h => checkPatternsExcAux_aborts rs2 msg line rs1 [] h⟩

theorem rule_exception_aborts_whole_line_w :
    checkPatternsExc [((fun _ => (none : Option Bool)), "boom")] [] = none :=
  rule_exception_aborts_whole_line.2.2 [] [] "boom" [] (by decide)

/-- C3 counterexample: with a failing first rule followed by a matching
second rule, the loop result is the propagated exception (`none`) — the
remaining rule's finding `"ok"` is not produced, contradicting fail-soft
per-rule isolation. -/
theorem rule_failsoft_false :
    checkPatternsExc [((fun _ => (none : Option Bool)), "bad"),
        ((fun _ => some true), "ok")] [] = none ∧
    checkPatternsExc [((fun _ => (none : Option Bool)), "bad"),
        ((fun _ => some true), "ok")] [] ≠ some ["ok"] :=
  ⟨rfl, fun h => Option.noConfusion h⟩

theorem import_info_exact_condition_w :
    importIssue ∈ analyze_python_line (strCodes "import os") ∧
    ¬ (⟨strCodes "a.txt", 1, FeedbackType.info,
        "Verify that this import is actually used", 1⟩ : CodeFeedback) ∈
      lineFeedback (strCodes "a.txt") 1 (strCodes "import os") :=
  ⟨(import_info_exact_condition.1 (strCodes "import os")).mpr (by decide),
   fun hmem => import_info_exact_condition.2.1 (strCodes "a.txt") 1
     (strCodes "import os") (by decide) _ hmem rfl⟩

end PRScan
